import Mathlib

/-
Verification development for the cparseparse command-line argument parsing
library.  The definitions below are a shallow embedding of the C++ code in
src/include/argument-parser.h (class argparse::Argument_Parser together with
Argument_Info, Positional_Info and Optional_Info).  Tokens and values are
modelled as Lean String, the unordered_map registries as association lists,
and every C++ throw becomes an Except error carrying the exact message that
the C++ code builds with errstr/lerrstr.
-/

namespace Cparse

/-! ## Character classes used by the regexes in argument-parser.h -/

/-- Matches the character class [0-9]. -/
def is_digit_char (c : Char) : Bool := '0' ≤ c && c ≤ '9'

/-- Matches the character class [a-zA-Z]. -/
def is_alpha_char (c : Char) : Bool :=
  ('a' ≤ c && c ≤ 'z') || ('A' ≤ c && c ≤ 'Z')

/-- Matches the character class [a-zA-Z_] (start of an option name). -/
def is_word_start_char (c : Char) : Bool := is_alpha_char c || c = '_'

/-- Matches the character class [a-zA-Z0-9_-] (body of an argument name). -/
def is_name_char (c : Char) : Bool :=
  is_alpha_char c || is_digit_char c || c = '_' || c = '-'

/-- Matches the regex class backslash-w, i.e. [a-zA-Z0-9_]. -/
def is_w_char (c : Char) : Bool :=
  is_alpha_char c || is_digit_char c || c = '_'

/-- Full match of the sub-pattern [a-zA-Z_][a-zA-Z0-9_-]+ (note the +: the
match is at least two characters long). -/
def name_plus_match : List Char → Bool
  | c :: rest => is_word_start_char c && !rest.isEmpty && rest.all is_name_char
  | [] => false

/-- Argument_Parser::format_option_name, on character lists: full match of
the regex --?([a-zA-Z_][a-zA-Z0-9_-]+) returning capture group 1, or [] when
the token does not match.  The group never starts with a dash, so the
one-dash and two-dash alternatives never overlap. -/
def format_option_name_chars : List Char → List Char
  | '-' :: '-' :: rest => if name_plus_match rest then rest else []
  | '-' :: rest => if name_plus_match rest then rest else []
  | _ => []

/-- Argument_Parser::format_option_name on String. -/
def format_option_name (s : String) : String :=
  (format_option_name_chars s.data).asString

/-- Argument_Parser::format_flag_name: full match of -([a-zA-Z_]) returning
the flag character; the C++ code returns the char 0 for no match, modelled
here as none. -/
def format_flag_name (s : String) : Option Char :=
  match s.data with
  | ['-', c] => if is_word_start_char c then some c else none
  | _ => none

/-- Argument_Parser::valid_option_name: full match of the regex
-([a-zA-Z_]|-?[a-zA-Z_][a-zA-Z0-9_-]+). -/
def valid_option_name_chars : List Char → Bool
  | '-' :: rest =>
    match rest with
    | [c] => is_word_start_char c
    | '-' :: rest2 => name_plus_match rest2
    | rest2 => name_plus_match rest2
  | _ => false

/-- Argument_Parser::valid_option_name on String. -/
def valid_option_name (s : String) : Bool := valid_option_name_chars s.data

/-- Argument_Parser::valid_positional_name: full match of the regex
backslash-w[a-zA-Z0-9_-]*. -/
def valid_positional_name (s : String) : Bool :=
  match s.data with
  | c :: rest => is_w_char c && rest.all is_name_char
  | [] => false

/-! ## Error strings (errstr / lerrstr) -/

/-- errstr: runtime (user-input) error text, prefixed with the script name
(g_scriptname, which parse_args sets to argv[0]). -/
def errstr (scriptname msg : String) : String := scriptname ++ ": " ++ msg

/-- lerrstr: logic error text, prefixed with the library marker. -/
def lerrstr (msg : String) : String := "Argument_Parser: " ++ msg

/-! ## Data model -/

/-- enum class Optional_Type { FLAG, SINGLE, APPEND }. -/
inductive Optional_Type
  | FLAG
  | SINGLE
  | APPEND
deriving DecidableEq

/-- Positional_Info: name plus the single value set during matching
(m_value, default-constructed to the empty string at registration). -/
structure Positional_Info where
  name : String
  value : String
deriving DecidableEq

/-- Optional_Info: name, optional flag character (the C++ char 0 sentinel
becomes none), arity type, and the value list m_values. -/
structure Optional_Info where
  name : String
  flag : Option Char
  type : Optional_Type
  values : List String
deriving DecidableEq

/-- The Argument_Parser registry state.  The two unordered_maps keyed by
name and the flag table are modelled as association lists with unique keys
(registration rejects duplicates). -/
structure ArgParser where
  positional_order : List String
  positional_args : List (String × Positional_Info)
  optional_order : List String
  optional_args : List (String × Optional_Info)
  flags : List (Char × String)
deriving DecidableEq

/-- Association list lookup keyed by String (models unordered_map::find). -/
def lookupA {α : Type} : List (String × α) → String → Option α
  | [], _ => none
  | kv :: rest, n => if kv.1 = n then some kv.2 else lookupA rest n

/-- Association list lookup keyed by Char (models m_flags.find). -/
def lookupF : List (Char × String) → Char → Option String
  | [], _ => none
  | kv :: rest, c => if kv.1 = c then some kv.2 else lookupF rest c

/-! ## Registration (add_positional / add_optional) -/

/-- A parser with nothing registered (the raw member initial state). -/
def empty_registry : ArgParser := ⟨[], [], [], [], []⟩

/-- Argument_Parser::add_positional.  Order of checks follows the source:
name syntax, collision with an optional reference name, duplicate. -/
def add_positional (p : ArgParser) (name : String) : Except String ArgParser :=
  if !valid_positional_name name then
    .error (lerrstr ("invalid positional argument name \x27" ++ name ++ "\x27"))
  else if (lookupA p.optional_args name).isSome then
    .error (lerrstr ("positional argument name conflicts with optional argument reference name \x27" ++ name ++ "\x27"))
  else if (lookupA p.positional_args name).isSome then
    .error (lerrstr ("duplicate positional argument name \x27" ++ name ++ "\x27"))
  else .ok { p with
    positional_args := p.positional_args ++ [(name, { name := name, value := "" })],
    positional_order := p.positional_order ++ [name] }

/-- Argument_Parser::add_optional (long-name overload). -/
def add_optional (p : ArgParser) (long_name : String) (type : Optional_Type) :
    Except String ArgParser :=
  let formatted_name := format_option_name long_name
  if formatted_name = "" then
    .error (lerrstr ("invalid optional argument name: " ++ long_name))
  else if (lookupA p.positional_args formatted_name).isSome then
    .error (lerrstr ("optional argument reference name conflicts with positional argument name \x27" ++ formatted_name ++ "\x27"))
  else if (lookupA p.optional_args formatted_name).isSome then
    .error (lerrstr ("duplicate optional argument name \x27" ++ formatted_name ++ "\x27"))
  else .ok { p with
    optional_args := p.optional_args ++
      [(formatted_name, { name := formatted_name, flag := none, type := type, values := [] })],
    optional_order := p.optional_order ++ [formatted_name] }

/-- Set the flag character on the optional registered under the given name
(Optional_Info::set_flag reached through the reference that add_optional
returned). -/
def set_flag_on (m : List (String × Optional_Info)) (name : String) (c : Char) :
    List (String × Optional_Info) :=
  m.map fun kv => if kv.1 = name then (kv.1, { kv.2 with flag := some c }) else kv

/-- Argument_Parser::add_optional (flag + long-name overload). -/
def add_optional_with_flag (p : ArgParser) (flag long_name : String)
    (type : Optional_Type) : Except String ArgParser :=
  match format_flag_name flag with
  | none => .error (lerrstr ("invalid flag name \x27" ++ flag ++ "\x27"))
  | some fc =>
    if (lookupF p.flags fc).isSome then
      .error (lerrstr ("duplicate flag name \x27" ++ flag ++ "\x27"))
    else
      match add_optional p long_name type with
      | .error e => .error e
      | .ok q =>
        let oname := format_option_name long_name
        .ok { q with
          optional_args := set_flag_on q.optional_args oname fc,
          flags := q.flags ++ [(fc, oname)] }

/-- The Argument_Parser constructor: pre-registers -h, --help as a FLAG
optional.  That registration cannot fail; the error branch mirrors the
(unreachable) exception propagation out of the constructor. -/
def init_registry : ArgParser :=
  match add_optional_with_flag empty_registry "-h" "--help" .FLAG with
  | .ok p => p
  | .error _ => empty_registry

/-! ## The matching engine (prematch_args / match_args / parse_args) -/

/-- Outcome of a failed parse: either the --help early exit (print_help
followed by std::exit(0)) or a thrown user-input error with its message. -/
inductive PErr
  | help_exit
  | user (msg : String)
deriving DecidableEq

/-- struct Arg_Info from Argument_Parser: the raw token, the resolved option
reference name (empty for a positional candidate), and the consumed option
value (empty when unused). -/
structure Arg_Info where
  arg : String
  option_name : String
  option_value : String
deriving DecidableEq

/-- Message of the "should only be specified once" runtime error. -/
def once_msg (sn n : String) : String :=
  errstr sn ("\x27" ++ n ++ "\x27 should only be specified once")

/-- Message of the "requires a value" runtime error. -/
def requires_value_msg (sn n : String) : String :=
  errstr sn ("\x27" ++ n ++ "\x27 requires a value")

/-- Message of the "invalid option" runtime error (note: it names the
formatted reference name, i.e. the token with leading dashes stripped). -/
def invalid_option_msg (sn n : String) : String :=
  errstr sn ("invalid option \x27" ++ n ++ "\x27, pass --help to display possible options")

/-- Message of the "invalid flag" runtime error (note: it names the raw
token). -/
def invalid_flag_msg (sn tok : String) : String :=
  errstr sn ("invalid flag \x27" ++ tok ++ "\x27, pass --help to display possible options")

/-- Message of the "requires positional argument" runtime error. -/
def requires_positional_msg (sn n : String) : String :=
  errstr sn ("requires positional argument \x27" ++ n ++ "\x27")

/-- Argument_Parser::lookup_formatted_option_name: a token that full-matches
the flag pattern -X must be a registered flag (else "invalid flag" is thrown
immediately) and resolves to its long name; otherwise the result is the
formatted long option name, which is empty for a positional candidate. -/
def lookup_formatted_option_name (p : ArgParser) (sn tok : String) :
    Except PErr String :=
  match format_flag_name tok with
  | some fc =>
    match lookupF p.flags fc with
    | some long => .ok long
    | none => .error (.user (invalid_flag_msg sn tok))
  | none => .ok (format_option_name tok)

/-- Argument_Parser::prematch_optional_arg.  next is the token following the
option reference (none models argi+1 == argc).  The result pairs the stored
option value with a Bool telling whether the next token was consumed (the
C++ ++argi); FLAG arguments store "true" and consume nothing. -/
def prematch_optional_arg (p : ArgParser) (sn oname : String) (repeated : Bool)
    (next : Option String) : Except PErr (String × Bool) :=
  if oname = "help" then .error .help_exit
  else
    match lookupA p.optional_args oname with
    | none => .error (.user (invalid_option_msg sn oname))
    | some o =>
      if o.type = .FLAG then
        if repeated then .error (.user (once_msg sn oname)) else .ok ("true", false)
      else
        match next with
        | none => .error (.user (requires_value_msg sn oname))
        | some v =>
          if valid_option_name v then .error (.user (requires_value_msg sn oname))
          else if o.type ≠ .APPEND && repeated then .error (.user (once_msg sn oname))
          else .ok (v, true)

/-- Increment the per-option occurrence counter (optional_occurs). -/
def bump (occ : String → Nat) (n : String) : String → Nat :=
  fun m => if m = n then occ n + 1 else occ m

/-- The loop of Argument_Parser::prematch_args over argv[1..argc-1].  occ is
the optional_occurs counter map; the repeated test mirrors the C++
++optional_occurs[name] > 1.  When an option consumes its value the loop
skips the value token, exactly as the by-reference argi increment does.  At
the end of the input a surviving option reference can only be a FLAG (every
value-taking option errors out on a missing next token), so the last
arg_info is pushed and the loop ends. -/
def prematch_go (p : ArgParser) (sn : String) :
    List String → (String → Nat) → Except PErr (List Arg_Info)
  | [], _ => .ok []
  | tok :: rest, occ =>
    match lookup_formatted_option_name p sn tok with
    | .error e => .error e
    | .ok oname =>
      if oname = "" then
        match prematch_go p sn rest occ with
        | .error e => .error e
        | .ok infos => .ok ({ arg := tok, option_name := "", option_value := "" } :: infos)
      else
        match rest with
        | [] =>
          match prematch_optional_arg p sn oname (decide (occ oname + 1 > 1)) none with
          | .error e => .error e
          | .ok (val, _) => .ok [{ arg := tok, option_name := oname, option_value := val }]
        | next :: rest2 =>
          match prematch_optional_arg p sn oname (decide (occ oname + 1 > 1)) (some next) with
          | .error e => .error e
          | .ok (val, takes) =>
            if takes then
              match prematch_go p sn rest2 (bump occ oname) with
              | .error e => .error e
              | .ok infos =>
                .ok ({ arg := tok, option_name := oname, option_value := val } :: infos)
            else
              match prematch_go p sn (next :: rest2) (bump occ oname) with
              | .error e => .error e
              | .ok infos =>
                .ok ({ arg := tok, option_name := oname, option_value := val } :: infos)

/-- Count of tokens classified as positional candidates
(the positional_count accumulator of prematch_args). -/
def positional_count (infos : List Arg_Info) : Nat :=
  infos.countP (fun i => i.option_name = "")

/-- Argument_Parser::prematch_args: run the classification loop, then check
that enough positional candidates were found; if not, fail naming the
declared positional at index positional_count. -/
def prematch_args (p : ArgParser) (sn : String) (user_args : List String) :
    Except PErr (List Arg_Info) :=
  match prematch_go p sn user_args (fun _ => 0) with
  | .error e => .error e
  | .ok infos =>
    if positional_count infos < p.positional_order.length then
      .error (.user (requires_positional_msg sn
        (p.positional_order.getD (positional_count infos) "")))
    else .ok infos

/-- Argument_Parser::match_args: split the classified arg_infos into the
positional buffer (raw tokens, input order) and the per-option value pairs
(occurrence order); the unordered_map of value vectors is represented by the
flat (name, value) pair list. -/
def match_args (p : ArgParser) (sn : String) (user_args : List String) :
    Except PErr (List String × List (String × String)) :=
  match prematch_args p sn user_args with
  | .error e => .error e
  | .ok infos =>
    .ok (infos.filterMap (fun i => if i.option_name = "" then some i.arg else none),
         infos.filterMap (fun i => if i.option_name = "" then none
                                   else some (i.option_name, i.option_value)))

/-- Positional_Info::set_value through the positional_args map. -/
def set_value_in (m : List (String × Positional_Info)) (name v : String) :
    List (String × Positional_Info) :=
  m.map fun kv => if kv.1 = name then (kv.1, { kv.2 with value := v }) else kv

/-- The first assignment loop of parse_args: bind the positional buffer to
the declared positionals in declaration order (loop index pos_idx). -/
def assign_positionals (m : List (String × Positional_Info)) :
    List (String × String) → List (String × Positional_Info)
  | [] => m
  | (n, v) :: rest => assign_positionals (set_value_in m n v) rest

/-- All values recorded for one option name, in occurrence order (one vector
of the optional_args unordered_map). -/
def values_for (opts : List (String × String)) (n : String) : List String :=
  (opts.filter (fun q => q.1 = n)).map (fun q => q.2)

/-- Optional_Info::set_values through the optional_args map. -/
def set_values_in (m : List (String × Optional_Info)) (name : String)
    (vals : List String) : List (String × Optional_Info) :=
  m.map fun kv => if kv.1 = name then (kv.1, { kv.2 with values := vals }) else kv

/-- The distinct keys of the matched-options map, in first-occurrence
order. -/
def distinct_names : List String → List String → List String
  | [], _ => []
  | n :: rest, seen =>
    if n ∈ seen then distinct_names rest seen else n :: distinct_names rest (n :: seen)

/-- The second assignment loop of parse_args: for every option name that
occurs in the matched pairs, set_values with its value vector. -/
def assign_optionals (m : List (String × Optional_Info))
    (opts : List (String × String)) : List (String × Optional_Info) :=
  (distinct_names (opts.map (fun q => q.1)) []).foldl
    (fun acc n => set_values_in acc n (values_for opts n)) m

/-- Argument_Parser::parse_args.  argv is split as argv0 (the program name,
assigned to g_scriptname) plus the user tokens.  The C++ method first calls
the const method match_args, which performs every validation and throws all
user-input errors while building purely local data; only after it returns
does parse_args mutate the registered definitions and rewrite argc/argv.
An error therefore leaves the parser and the argument vector exactly as
they were, which the error value records explicitly.  On success the result
is the updated parser together with the updated argument vector: argv0
followed by the unmatched positional leftovers (argc becomes its length). -/
def parse_args (p : ArgParser) (argv0 : String) (args : List String) :
    Except (PErr × ArgParser × List String) (ArgParser × List String) :=
  match match_args p argv0 args with
  | .error e => .error (e, p, argv0 :: args)
  | .ok (pos, opts) =>
    let p1 : ArgParser := { p with
      positional_args := assign_positionals p.positional_args (p.positional_order.zip pos) }
    let p2 : ArgParser := { p1 with
      optional_args := assign_optionals p1.optional_args opts }
    .ok (p2, argv0 :: pos.drop p.positional_order.length)

/-! ## Typed value coercion (Argument_Info::parse_string_arg and friends) -/

/-- Characters treated as whitespace by the C locale isspace, which strtoull
skips before the number. -/
def is_cspace (c : Char) : Bool :=
  c = ' ' || c = '\t' || c = '\n' || c = '\x0b' || c = '\x0c' || c = '\r'

/-- Decimal digit accumulation. -/
def digits_to_nat : List Char → Nat → Nat
  | [], acc => acc
  | c :: rest, acc => digits_to_nat rest (acc * 10 + (c.toNat - '0'.toNat))

/-- The three outcomes of a std::stoull-style conversion: a value, an
invalid_argument exception, or an out_of_range exception. -/
inductive Stoull_Result
  | ok (n : Nat)
  | invalid_arg
  | out_of_range
deriving DecidableEq

/-- ULLONG_MAX on the 64-bit targets the library is built for. -/
def ULLONG_MAX : Nat := 2 ^ 64 - 1

/-- Digit phase of std::stoull (base 10): the digit run must be nonempty
(else invalid_argument, "no conversion"); a magnitude above ULLONG_MAX is
out_of_range; a minus sign wraps the value modulo 2^64 as unsigned
arithmetic does — the very hazard Argument_Info::stoull guards against.
Trailing non-digit characters are ignored. -/
def stoull_digits (s : List Char) (neg : Bool) : Stoull_Result :=
  let ds := s.takeWhile is_digit_char
  if ds.isEmpty then .invalid_arg
  else
    let n := digits_to_nat ds 0
    if n > ULLONG_MAX then .out_of_range
    else .ok (if neg then (2 ^ 64 - n) % 2 ^ 64 else n)

/-- std::stoull on a character list: skip C whitespace, then an optional
sign, then digits. -/
def std_stoull (s : List Char) : Stoull_Result :=
  match s.dropWhile is_cspace with
  | '+' :: rest => stoull_digits rest false
  | '-' :: rest => stoull_digits rest true
  | rest => stoull_digits rest false

/-- Argument_Info::stoull: the wraparound guard.  Any value containing a
minus sign anywhere is rejected with out_of_range before std::stoull ever
runs, so a negative literal can never wrap to a huge unsigned value. -/
def cpp_stoull (value : String) : Stoull_Result :=
  if value.data.contains '-' then .out_of_range
  else std_stoull value.data

/-- Largest value of an unsigned integer target type of the given width
(numeric_limits max; the corresponding min / lowest is 0). -/
def unsigned_max (bits : Nat) : Nat := 2 ^ bits - 1

/-- Message of the "must be of integral type" runtime error (the
invalid_argument catch branch of parse_numeric_arg). -/
def must_be_integral_msg (sn name : String) : String :=
  errstr sn ("\x27" ++ name ++ "\x27 must be of integral type")

/-- Message of the "must be in range" runtime error, printing
numeric_limits min and max of the unsigned target (min is 0). -/
def range_msg (sn name : String) (bits : Nat) : String :=
  errstr sn ("\x27" ++ name ++ "\x27 must be in range [0," ++
    toString (unsigned_max bits) ++ "]")

/-- Argument_Info::parse_string_arg for an unsigned integral target of the
given bit width, via parse_numeric_arg with Argument_Info::stoull as the
conversion function.  The n_value < lowest comparison of the source is
omitted because lowest is 0 and the converted value is a natural number. -/
def parse_unsigned_arg (bits : Nat) (sn name value : String) : Except String Nat :=
  match cpp_stoull value with
  | .invalid_arg => .error (must_be_integral_msg sn name)
  | .out_of_range => .error (range_msg sn name bits)
  | .ok n =>
    if n > unsigned_max bits then .error (range_msg sn name bits)
    else .ok n

/-- Argument_Info::parse_string_arg for bool: exactly the case-sensitive
literals "true" and "false". -/
def parse_bool_arg (sn name value : String) : Except String Bool :=
  if value = "true" then .ok true
  else if value = "false" then .ok false
  else .error (errstr sn ("\x27" ++ name ++ "\x27 must be either \x27true\x27 or \x27false\x27"))

/-- Argument_Info::parse_string_arg for std::string: the identity, it can
never fail. -/
def parse_string_arg_id (value : String) : Except String String := .ok value

/-- A coercion family: given the argument name (m_name, used in error
messages) and the stored value, produce a typed result.  The instantiations
below correspond to the parse_string_arg template specialisations. -/
def bool_coercion (sn : String) : String → String → Except String Bool :=
  fun name v => parse_bool_arg sn name v

/-- Unsigned-integer coercion at a given width, as a coercion family. -/
def unsigned_coercion (sn : String) (bits : Nat) : String → String → Except String Nat :=
  fun name v => parse_unsigned_arg bits sn name v

/-- String coercion as a coercion family (ignores the argument name). -/
def string_coercion : String → String → Except String String :=
  fun _ v => parse_string_arg_id v

/-! ## Retrieval (arg / arg_at / as_type_at) -/

/-- Optional_Info::value: the stored value at an index, or the out_of_range
logic error naming the index and the argument. -/
def Optional_Info.value_at (o : Optional_Info) (idx : Nat) : Except String String :=
  if idx < o.values.length then .ok (o.values.getD idx "")
  else .error (lerrstr ("index " ++ toString idx ++ " is out of range for \x27" ++
    o.name ++ "\x27"))

/-- Optional_Info::as_type_at (the private overload taking has_default and
default_val, here fused into an Option).  Order of the checks follows the
source: exists(), then the default, then the FLAG fallback to "false", then
the "no value given" logic error. -/
def Optional_Info.as_type_at {α : Type} (o : Optional_Info)
    (coe : String → String → Except String α) (idx : Nat) (dflt : Option α) :
    Except String α :=
  if o.values.isEmpty then
    match dflt with
    | some d => .ok d
    | none =>
      if o.type = .FLAG then coe o.name "false"
      else .error (lerrstr ("no value given for \x27" ++ o.name ++
        "\x27 and no default specified"))
  else
    match o.value_at idx with
    | .error e => .error e
    | .ok v => coe o.name v

/-- Positional_Info::as_type: coerce the single stored value; there is no
index and no bounds check. -/
def Positional_Info.as_type {α : Type} (pi : Positional_Info)
    (coe : String → String → Except String α) : Except String α :=
  coe pi.name pi.value

/-- Argument_Parser::arg_at (private overload): optionals are looked up
first and get the index/default treatment; positionals ignore the index
entirely; an unknown name is a logic error. -/
def ArgParser.arg_at {α : Type} (p : ArgParser)
    (coe : String → String → Except String α) (name : String) (idx : Nat)
    (dflt : Option α) : Except String α :=
  match lookupA p.optional_args name with
  | some o => o.as_type_at coe idx dflt
  | none =>
    match lookupA p.positional_args name with
    | some pi => pi.as_type coe
    | none => .error (lerrstr ("no argument by the name \x27" ++ name ++ "\x27"))

/-- Argument_Parser::arg (no default): arg_at at index 0. -/
def ArgParser.arg {α : Type} (p : ArgParser)
    (coe : String → String → Except String α) (name : String) : Except String α :=
  p.arg_at coe name 0 none

/-! ## Substring occurrence (used to state message-content claims) -/

/-- Whether the first list occurs at the head of the second. -/
def starts_with : List Char → List Char → Bool
  | [], _ => true
  | _ :: _, [] => false
  | a :: as, b :: bs => a = b && starts_with as bs

/-- Whether the first list occurs contiguously anywhere in the second. -/
def occurs_in (needle : List Char) : List Char → Bool
  | [] => needle.isEmpty
  | c :: rest => starts_with needle (c :: rest) || occurs_in needle rest

/-- Whether needle occurs as a contiguous substring of hay. -/
def str_occurs (needle hay : String) : Bool := occurs_in needle.data hay.data

/-- The Arg_Info of a token classified as a positional candidate. -/
def pos_info (t : String) : Arg_Info := { arg := t, option_name := "", option_value := "" }

/-! ## Concrete registries used by the witnesses -/

/-- Registry built as the library does: the constructor (with its implicit
help optional) plus two declared positionals a and b. -/
def two_pos_registry : ArgParser :=
  match (add_positional init_registry "a").bind (fun p => add_positional p "b") with
  | .ok p => p
  | .error _ => empty_registry

/-- init_registry plus a FLAG optional -i, --invert. -/
def flag_registry : ArgParser :=
  match add_optional_with_flag init_registry "-i" "--invert" .FLAG with
  | .ok p => p
  | .error _ => empty_registry

/-- init_registry plus a SINGLE optional -r, --repeat. -/
def single_registry : ArgParser :=
  match add_optional_with_flag init_registry "-r" "--repeat-count" .SINGLE with
  | .ok p => p
  | .error _ => empty_registry

/-- init_registry plus an APPEND optional -f, --filter. -/
def append_registry : ArgParser :=
  match add_optional_with_flag init_registry "-f" "--filter" .APPEND with
  | .ok p => p
  | .error _ => empty_registry

/-- init_registry plus a positional named points. -/
def points_registry : ArgParser :=
  match add_positional init_registry "points" with
  | .ok p => p
  | .error _ => empty_registry

/-! ## Lemmas about the classification loop -/

/-- Classifying an all-positional prefix prepends its pos_infos and leaves
the occurrence counters untouched. -/
theorem prematch_go_append_pos (p : ArgParser) (sn : String) (ps rest : List String)
    (occ : String → Nat)
    (h : ∀ t ∈ ps, lookup_formatted_option_name p sn t = .ok "") :
    prematch_go p sn (ps ++ rest) occ =
      (prematch_go p sn rest occ).map (fun infos => ps.map pos_info ++ infos) := by
  induction ps with
  | nil =>
    cases hr : prematch_go p sn rest occ <;> simp [Except.map, hr]
  | cons t ps ih =>
    have ht : lookup_formatted_option_name p sn t = .ok "" := h t (by simp)
    have hps : ∀ u ∈ ps, lookup_formatted_option_name p sn u = .ok "" := by
      intro u hu; exact h u (by simp [hu])
    rw [List.cons_append]
    rw [prematch_go]
    rw [ht]
    rw [ih hps]
    cases hr : prematch_go p sn rest occ <;> simp [Except.map, pos_info]

/-- Every pos_info counts as a positional. -/
theorem countP_map_pos (ps : List String) :
    List.countP (fun i => decide (i.option_name = "")) (ps.map pos_info) = ps.length := by
  induction ps with
  | nil => simp
  | cons t ps ih => simp [List.countP_cons, pos_info, ih]

/-- positional_count of a mapped positional block plus a tail. -/
theorem positional_count_append_pos (ps : List String) (infos : List Arg_Info) :
    positional_count (ps.map pos_info ++ infos) = ps.length + positional_count infos := by
  rw [positional_count, List.countP_append, countP_map_pos, positional_count]

/-- The positional buffer extracted from a mapped positional block plus a
tail. -/
theorem filterMap_pos_append (ps : List String) (infos : List Arg_Info) :
    (ps.map pos_info ++ infos).filterMap
        (fun i => if i.option_name = "" then some i.arg else none) =
      ps ++ infos.filterMap (fun i => if i.option_name = "" then some i.arg else none) := by
  induction ps with
  | nil => simp
  | cons t ps ih => simp [pos_info, ih]

/-- The matched-option pairs extracted from a mapped positional block plus a
tail. -/
theorem filterMap_opt_append (ps : List String) (infos : List Arg_Info) :
    (ps.map pos_info ++ infos).filterMap
        (fun i => if i.option_name = "" then none else some (i.option_name, i.option_value)) =
      infos.filterMap
        (fun i => if i.option_name = "" then none else some (i.option_name, i.option_value)) := by
  induction ps with
  | nil => simp
  | cons t ps ih => simp [pos_info, ih]

/-- The length of the positional buffer equals positional_count. -/
theorem length_filterMap_pos (infos : List Arg_Info) :
    (infos.filterMap (fun i => if i.option_name = "" then some i.arg else none)).length =
      positional_count infos := by
  induction infos with
  | nil => simp [positional_count]
  | cons i infos ih =>
    by_cases h : i.option_name = "" <;> simp [positional_count, h] at ih ⊢ <;> omega

/-! ## Lemmas about the assignment maps -/

/-- set_value_in rewrites the binding of the assigned name. -/
theorem lookupA_set_value_in_self (m : List (String × Positional_Info)) (n v : String) :
    lookupA (set_value_in m n v) n =
      (lookupA m n).map (fun i => { i with value := v }) := by
  induction m with
  | nil => simp [set_value_in, lookupA]
  | cons kv m ih =>
    by_cases h : kv.1 = n <;> simp [set_value_in, lookupA, h] at ih ⊢ <;>
      simpa [set_value_in] using ih

/-- set_value_in leaves every other binding alone. -/
theorem lookupA_set_value_in_other (m : List (String × Positional_Info)) (n v n2 : String)
    (h : n2 ≠ n) :
    lookupA (set_value_in m n v) n2 = lookupA m n2 := by
  induction m with
  | nil => simp [set_value_in, lookupA]
  | cons kv m ih =>
    by_cases hk : kv.1 = n <;> by_cases hk2 : kv.1 = n2 <;>
      simp_all [set_value_in, lookupA]

/-- set_values_in rewrites the binding of the assigned name. -/
theorem lookupA_set_values_in_self (m : List (String × Optional_Info)) (n : String)
    (vals : List String) :
    lookupA (set_values_in m n vals) n =
      (lookupA m n).map (fun o => { o with values := vals }) := by
  induction m with
  | nil => simp [set_values_in, lookupA]
  | cons kv m ih =>
    by_cases h : kv.1 = n <;> simp [set_values_in, lookupA, h] at ih ⊢ <;>
      simpa [set_values_in] using ih

/-- set_values_in leaves every other binding alone. -/
theorem lookupA_set_values_in_other (m : List (String × Optional_Info)) (n : String)
    (vals : List String) (n2 : String) (h : n2 ≠ n) :
    lookupA (set_values_in m n vals) n2 = lookupA m n2 := by
  induction m with
  | nil => simp [set_values_in, lookupA]
  | cons kv m ih =>
    by_cases hk : kv.1 = n <;> by_cases hk2 : kv.1 = n2 <;>
      simp_all [set_values_in, lookupA]

/-- assign_positionals does not touch names outside the assigned pair
list. -/
theorem assign_positionals_not_mem (prs : List (String × String))
    (m : List (String × Positional_Info)) (n : String)
    (h : ∀ q ∈ prs, q.1 ≠ n) :
    lookupA (assign_positionals m prs) n = lookupA m n := by
  induction prs generalizing m with
  | nil => simp [assign_positionals]
  | cons q prs ih =>
    obtain ⟨qn, qv⟩ := q
    rw [assign_positionals]
    rw [ih _ (fun r hr => h r (by simp [hr]))]
    exact lookupA_set_value_in_other m qn qv n (Ne.symm (h (qn, qv) (by simp)))

/-- With pairwise-distinct names, assign_positionals binds each assigned
name to its paired value. -/
theorem assign_positionals_getD (prs : List (String × String))
    (m : List (String × Positional_Info)) (hnd : (prs.map Prod.fst).Nodup) :
    ∀ i, i < prs.length →
      lookupA (assign_positionals m prs) (prs.getD i ("", "")).1 =
        (lookupA m (prs.getD i ("", "")).1).map
          (fun info => { info with value := (prs.getD i ("", "")).2 }) := by
  induction prs generalizing m with
  | nil => intro i hi; simp at hi
  | cons q prs ih =>
    obtain ⟨qn, qv⟩ := q
    simp only [List.map_cons, List.nodup_cons] at hnd
    intro i hi
    match i with
    | 0 =>
      rw [assign_positionals]
      simp only [List.getD_cons_zero]
      rw [assign_positionals_not_mem prs _ qn
        (fun r hr => by
          intro heq
          exact hnd.1 (heq ▸ List.mem_map_of_mem Prod.fst hr))]
      exact lookupA_set_value_in_self m qn qv

    | i + 1 =>
      rw [assign_positionals]
      simp only [List.getD_cons_succ]
      have hlt : i < prs.length := by simpa using hi
      rw [ih _ hnd.2 i hlt]
      congr 1
      by_cases hq : (prs.getD i ("", "")).1 = qn
      · exfalso
        have hmem : (prs.getD i ("", "")).1 ∈ prs.map Prod.fst := by
          have hm : prs.getD i ("", "") ∈ prs := by
            rw [List.getD_eq_getElem prs ("", "") hlt]
            exact List.getElem_mem hlt
          exact List.mem_map_of_mem Prod.fst hm
        exact hnd.1 (hq ▸ hmem)
      · exact lookupA_set_value_in_other m qn qv _ hq

/-- assign_optionals on an empty match map is the identity. -/
theorem assign_optionals_nil (m : List (String × Optional_Info)) :
    assign_optionals m [] = m := by
  simp [assign_optionals, distinct_names]

/-- distinct_names of a constant-name list that has already been seen. -/
theorem distinct_names_const_seen (n : String) (l : List String)
    (h : ∀ x ∈ l, x = n) : distinct_names l [n] = [] := by
  induction l with
  | nil => simp [distinct_names]
  | cons x l ih =>
    have hx : x = n := h x (by simp)
    subst hx
    rw [distinct_names]
    simp [ih (fun y hy => h y (by simp [hy]))]

/-- distinct_names of a nonempty constant-name list is the singleton. -/
theorem distinct_names_const (n : String) (l : List String)
    (h : ∀ x ∈ l, x = n) (hne : l ≠ []) : distinct_names l [] = [n] := by
  match l with
  | [] => exact absurd rfl hne
  | x :: l =>
    have hx : x = n := h x (by simp)
    subst hx
    rw [distinct_names]
    simp [distinct_names_const_seen x l (fun y hy => h y (by simp [hy]))]

/-- assign_optionals for a match map whose pairs all name the same option:
precisely that option receives the value vector. -/
theorem assign_optionals_const (m : List (String × Optional_Info)) (n : String)
    (vs : List String) (hne : vs ≠ []) :
    assign_optionals m (vs.map (fun v => (n, v))) =
      set_values_in m n (values_for (vs.map (fun v => (n, v))) n) := by
  rw [assign_optionals]
  rw [show (vs.map (fun v => (n, v))).map (fun q => q.1) = vs.map (fun _ => n) by
    simp]
  rw [distinct_names_const n (vs.map fun _ => n) (by simp) (by simpa using hne)]
  simp

/-- values_for recovers the value list from a constant-name match map. -/
theorem values_for_const (n : String) (vs : List String) :
    values_for (vs.map (fun v => (n, v))) n = vs := by
  induction vs with
  | nil => simp [values_for]
  | cons v vs ih => simpa [values_for] using ih

/-! ## Step lemmas for option references in the classification loop -/

/-- A first (or any non-repeated) FLAG reference is recorded as one "true"
occurrence and consumes no further token. -/
theorem prematch_go_flag_step (p : ArgParser) (sn ref n : String) (o : Optional_Info)
    (occ : String → Nat) (rest : List String)
    (hres : lookup_formatted_option_name p sn ref = .ok n) (hne : n ≠ "")
    (hnh : n ≠ "help") (hlook : lookupA p.optional_args n = some o)
    (hty : o.type = .FLAG) (hocc : occ n = 0) :
    prematch_go p sn (ref :: rest) occ =
      (prematch_go p sn rest (bump occ n)).map
        (fun infos => { arg := ref, option_name := n, option_value := "true" } :: infos) := by
  have hpm : ∀ next, prematch_optional_arg p sn n (decide (occ n + 1 > 1)) next =
      .ok ("true", false) := by
    intro next
    simp [prematch_optional_arg, hnh, hlook, hty, hocc]
  cases rest with
  | nil =>
    conv_lhs => rw [prematch_go]
    rw [hres]
    dsimp only
    rw [if_neg hne, hpm none]
    simp [prematch_go, Except.map]
  | cons v rest2 =>
    conv_lhs => rw [prematch_go]
    rw [hres]
    dsimp only
    rw [if_neg hne, hpm (some v)]
    dsimp only
    cases hr : prematch_go p sn (v :: rest2) (bump occ n) <;> simp [hr, Except.map]

/-- A repeated FLAG reference fails with the should-only-be-specified-once
error, whatever follows it. -/
theorem prematch_go_flag_repeat (p : ArgParser) (sn ref n : String) (o : Optional_Info)
    (occ : String → Nat) (rest : List String)
    (hres : lookup_formatted_option_name p sn ref = .ok n) (hne : n ≠ "")
    (hnh : n ≠ "help") (hlook : lookupA p.optional_args n = some o)
    (hty : o.type = .FLAG) (hocc : 1 ≤ occ n) :
    prematch_go p sn (ref :: rest) occ = .error (.user (once_msg sn n)) := by
  have hpm : ∀ next, prematch_optional_arg p sn n (decide (occ n + 1 > 1)) next =
      .error (.user (once_msg sn n)) := by
    intro next
    have hdec : occ n + 1 > 1 := by omega
    simp [prematch_optional_arg, hnh, hlook, hty, hdec]
  cases rest with
  | nil =>
    conv_lhs => rw [prematch_go]
    rw [hres]
    dsimp only
    rw [if_neg hne, hpm none]
  | cons v rest2 =>
    conv_lhs => rw [prematch_go]
    rw [hres]
    dsimp only
    rw [if_neg hne, hpm (some v)]

/-- A value-taking reference (SINGLE or APPEND) that is allowed to proceed
consumes the following token as its value. -/
theorem prematch_go_value_step (p : ArgParser) (sn ref n : String) (o : Optional_Info)
    (occ : String → Nat) (v : String) (rest2 : List String)
    (hres : lookup_formatted_option_name p sn ref = .ok n) (hne : n ≠ "")
    (hnh : n ≠ "help") (hlook : lookupA p.optional_args n = some o)
    (hty : o.type ≠ .FLAG) (hrep : o.type = .APPEND ∨ occ n = 0)
    (hv : valid_option_name v = false) :
    prematch_go p sn (ref :: v :: rest2) occ =
      (prematch_go p sn rest2 (bump occ n)).map
        (fun infos => { arg := ref, option_name := n, option_value := v } :: infos) := by
  have hpm : prematch_optional_arg p sn n (decide (occ n + 1 > 1)) (some v) =
      .ok (v, true) := by
    rcases hrep with h | h
    · simp [prematch_optional_arg, hnh, hlook, hty, hv, h]
    · simp [prematch_optional_arg, hnh, hlook, hty, hv, h]
  conv_lhs => rw [prematch_go]
  rw [hres]
  dsimp only
  rw [if_neg hne, hpm]
  dsimp only
  cases hr : prematch_go p sn rest2 (bump occ n) <;> simp [hr, Except.map]

/-- A value-taking reference at the very end of the input fails with the
requires-a-value error. -/
theorem prematch_go_value_missing (p : ArgParser) (sn ref n : String)
    (o : Optional_Info) (occ : String → Nat)
    (hres : lookup_formatted_option_name p sn ref = .ok n) (hne : n ≠ "")
    (hnh : n ≠ "help") (hlook : lookupA p.optional_args n = some o)
    (hty : o.type ≠ .FLAG) :
    prematch_go p sn [ref] occ = .error (.user (requires_value_msg sn n)) := by
  have hpm : prematch_optional_arg p sn n (decide (occ n + 1 > 1)) none =
      .error (.user (requires_value_msg sn n)) := by
    simp [prematch_optional_arg, hnh, hlook, hty]
  conv_lhs => rw [prematch_go]
  rw [hres]
  dsimp only
  rw [if_neg hne, hpm]

/-- A value-taking reference whose next token itself matches the option-name
grammar fails with the requires-a-value error. -/
theorem prematch_go_value_optionlike (p : ArgParser) (sn ref n : String)
    (o : Optional_Info) (occ : String → Nat) (v : String) (rest2 : List String)
    (hres : lookup_formatted_option_name p sn ref = .ok n) (hne : n ≠ "")
    (hnh : n ≠ "help") (hlook : lookupA p.optional_args n = some o)
    (hty : o.type ≠ .FLAG) (hv : valid_option_name v = true) :
    prematch_go p sn (ref :: v :: rest2) occ =
      .error (.user (requires_value_msg sn n)) := by
  have hpm : prematch_optional_arg p sn n (decide (occ n + 1 > 1)) (some v) =
      .error (.user (requires_value_msg sn n)) := by
    simp [prematch_optional_arg, hnh, hlook, hty, hv]
  conv_lhs => rw [prematch_go]
  rw [hres]
  dsimp only
  rw [if_neg hne, hpm]

/-- A repeated SINGLE reference that does have a value token fails with the
should-only-be-specified-once error. -/
theorem prematch_go_value_repeat (p : ArgParser) (sn ref n : String)
    (o : Optional_Info) (occ : String → Nat) (v : String) (rest2 : List String)
    (hres : lookup_formatted_option_name p sn ref = .ok n) (hne : n ≠ "")
    (hnh : n ≠ "help") (hlook : lookupA p.optional_args n = some o)
    (hty : o.type ≠ .FLAG) (hap : o.type ≠ .APPEND) (hocc : 1 ≤ occ n)
    (hv : valid_option_name v = false) :
    prematch_go p sn (ref :: v :: rest2) occ = .error (.user (once_msg sn n)) := by
  have hpm : prematch_optional_arg p sn n (decide (occ n + 1 > 1)) (some v) =
      .error (.user (once_msg sn n)) := by
    have hdec : occ n + 1 > 1 := by omega
    simp [prematch_optional_arg, hnh, hlook, hty, hap, hv, hdec]
  conv_lhs => rw [prematch_go]
  rw [hres]
  dsimp only
  rw [if_neg hne, hpm]

/-- An option reference that reaches prematch_optional_arg without being
registered fails with the invalid-option error, whatever follows it. -/
theorem prematch_go_unregistered (p : ArgParser) (sn ref n : String)
    (occ : String → Nat) (rest : List String)
    (hres : lookup_formatted_option_name p sn ref = .ok n) (hne : n ≠ "")
    (hnh : n ≠ "help") (hlook : lookupA p.optional_args n = none) :
    prematch_go p sn (ref :: rest) occ = .error (.user (invalid_option_msg sn n)) := by
  have hpm : ∀ next, prematch_optional_arg p sn n (decide (occ n + 1 > 1)) next =
      .error (.user (invalid_option_msg sn n)) := by
    intro next
    simp [prematch_optional_arg, hnh, hlook]
  cases rest with
  | nil =>
    conv_lhs => rw [prematch_go]
    rw [hres]
    dsimp only
    rw [if_neg hne, hpm none]
  | cons v rest2 =>
    conv_lhs => rw [prematch_go]
    rw [hres]
    dsimp only
    rw [if_neg hne, hpm (some v)]

/-- A token whose flag pattern matches an unregistered flag character fails
with the invalid-flag error immediately, in lookup_formatted_option_name. -/
theorem prematch_go_invalid_flag (p : ArgParser) (sn ref : String) (c : Char)
    (occ : String → Nat) (rest : List String)
    (hfc : format_flag_name ref = some c) (hfl : lookupF p.flags c = none) :
    prematch_go p sn (ref :: rest) occ = .error (.user (invalid_flag_msg sn ref)) := by
  have hres : lookup_formatted_option_name p sn ref =
      .error (.user (invalid_flag_msg sn ref)) := by
    rw [lookup_formatted_option_name, hfc]
    simp [hfl]
  conv_lhs => rw [prematch_go]
  rw [hres]

/-- A classification error is the parse_args error, with the registry and
argument vector unchanged. -/
theorem parse_args_class_error (p : ArgParser) (sn : String) (args : List String)
    (e : PErr) (hclass : prematch_go p sn args (fun _ => 0) = .error e) :
    parse_args p sn args = .error (e, p, sn :: args) := by
  rw [parse_args, match_args, prematch_args, hclass]

/-- Error propagation through an all-positional prefix. -/
theorem prematch_go_append_pos_error (p : ArgParser) (sn : String)
    (ps rest : List String) (occ : String → Nat) (e : PErr)
    (h : ∀ t ∈ ps, lookup_formatted_option_name p sn t = .ok "")
    (herr : prematch_go p sn rest occ = .error e) :
    prematch_go p sn (ps ++ rest) occ = .error e := by
  rw [prematch_go_append_pos p sn ps rest occ h, herr]
  simp [Except.map]

/-! ## The two halves of the match_args result -/

/-- The positional buffer built by match_args from the classified
arg_infos. -/
def positional_buffer (infos : List Arg_Info) : List String :=
  infos.filterMap (fun i => if i.option_name = "" then some i.arg else none)

/-- The matched option pairs built by match_args from the classified
arg_infos. -/
def matched_pairs (infos : List Arg_Info) : List (String × String) :=
  infos.filterMap (fun i => if i.option_name = "" then none
                            else some (i.option_name, i.option_value))

/-- When classification succeeds and enough positional candidates were
found, match_args returns the two buffers. -/
theorem match_args_ok (p : ArgParser) (sn : String) (args : List String)
    (infos : List Arg_Info)
    (hclass : prematch_go p sn args (fun _ => 0) = .ok infos)
    (hge : p.positional_order.length ≤ positional_count infos) :
    match_args p sn args = .ok (positional_buffer infos, matched_pairs infos) := by
  rw [match_args, prematch_args, hclass]
  simp [Nat.not_lt.mpr hge, positional_buffer, matched_pairs]

/-- The successful branch of parse_args, written out explicitly. -/
theorem parse_args_ok (p : ArgParser) (sn : String) (args : List String)
    (pos : List String) (opts : List (String × String))
    (hmatch : match_args p sn args = .ok (pos, opts)) :
    parse_args p sn args = .ok
      ({ p with
          positional_args := assign_positionals p.positional_args
            (p.positional_order.zip pos),
          optional_args := assign_optionals p.optional_args opts },
       sn :: pos.drop p.positional_order.length) := by
  rw [parse_args, hmatch]

/-! ## Retrieval lemmas -/

/-- arg_at dispatches to the optional when its name is registered. -/
theorem arg_at_optional {α : Type} (p : ArgParser)
    (coe : String → String → Except String α) (name : String) (idx : Nat)
    (dflt : Option α) (o : Optional_Info)
    (h : lookupA p.optional_args name = some o) :
    p.arg_at coe name idx dflt = o.as_type_at coe idx dflt := by
  simp [ArgParser.arg_at, h]

/-- arg_at on an explicit record, dispatching to the optional (useful when
the parser is the record built by parse_args). -/
theorem arg_at_optional_mk (po : List String) (pa : List (String × Positional_Info))
    (oo : List String) (oa : List (String × Optional_Info))
    (fl : List (Char × String)) {α : Type}
    (coe : String → String → Except String α) (name : String) (idx : Nat)
    (dflt : Option α) (o : Optional_Info) (h : lookupA oa name = some o) :
    (ArgParser.mk po pa oo oa fl).arg_at coe name idx dflt =
      o.as_type_at coe idx dflt := by
  simp [ArgParser.arg_at, h]

/-- as_type_at on a supplied optional with an in-range index coerces the
stored value at that index. -/
theorem as_type_at_present {α : Type} (o : Optional_Info)
    (coe : String → String → Except String α) (idx : Nat) (dflt : Option α)
    (h : idx < o.values.length) :
    o.as_type_at coe idx dflt = coe o.name (o.values.getD idx "") := by
  have hne : o.values.isEmpty = false := by
    cases hv : o.values with
    | nil => rw [hv] at h; simp at h
    | cons a l => simp
  simp [Optional_Info.as_type_at, hne, Optional_Info.value_at, h]

/-- as_type_at on a supplied optional with an out-of-range index fails with
the out-of-range logic error naming the index and the argument. -/
theorem as_type_at_out_of_range {α : Type} (o : Optional_Info)
    (coe : String → String → Except String α) (idx : Nat) (dflt : Option α)
    (hne : o.values ≠ []) (h : o.values.length ≤ idx) :
    o.as_type_at coe idx dflt = .error
      (lerrstr ("index " ++ toString idx ++ " is out of range for \x27" ++
        o.name ++ "\x27")) := by
  have hne2 : o.values.isEmpty = false := by
    cases hv : o.values with
    | nil => exact absurd hv hne
    | cons a l => simp
  simp [Optional_Info.as_type_at, hne2, Optional_Info.value_at, Nat.not_lt.mpr h]

/-- as_type_at on an absent FLAG optional with no default coerces the
literal "false". -/
theorem as_type_at_absent_flag {α : Type} (o : Optional_Info)
    (coe : String → String → Except String α) (idx : Nat)
    (hv : o.values = []) (hty : o.type = .FLAG) :
    o.as_type_at coe idx none = coe o.name "false" := by
  simp [Optional_Info.as_type_at, hv, hty]

/-- as_type_at on an absent non-FLAG optional with no default fails with the
no-value-given logic error. -/
theorem as_type_at_absent_no_flag {α : Type} (o : Optional_Info)
    (coe : String → String → Except String α) (idx : Nat)
    (hv : o.values = []) (hty : o.type ≠ .FLAG) :
    o.as_type_at coe idx none = .error
      (lerrstr ("no value given for \x27" ++ o.name ++
        "\x27 and no default specified")) := by
  simp [Optional_Info.as_type_at, hv, hty]

end Cparse

deriving instance DecidableEq for Except

namespace Cparse

/-! ## Claim C1 -/

/-- C1: for every registry with N declared positional definitions and every
token list whose classification pass completes with fewer positional
candidates than N, parse_args fails with the user-input error
"requires positional argument" naming exactly the declared positional at
index positional_count (the first unsatisfied one in declaration order),
and the parser state and argument vector are returned unchanged. -/
theorem parse_args_missing_positional (p : ArgParser) (sn : String)
    (args : List String) (infos : List Arg_Info)
    (hclass : prematch_go p sn args (fun _ => 0) = .ok infos)
    (hlt : positional_count infos < p.positional_order.length) :
    parse_args p sn args = .error
      (.user (requires_positional_msg sn
        (p.positional_order.getD (positional_count infos) "")), p, sn :: args) := by
  rw [parse_args, match_args, prematch_args, hclass]
  simp [hlt]

/-- C1 witness: two positionals a, b declared and a single positional token
supplied; the error names b (declaration index 1). -/
theorem parse_args_missing_positional_witness :
    prematch_go two_pos_registry "prog" ["x"] (fun _ => 0) = .ok [pos_info "x"] ∧
    positional_count [pos_info "x"] < two_pos_registry.positional_order.length ∧
    parse_args two_pos_registry "prog" ["x"] = .error
      (.user (requires_positional_msg "prog" "b"), two_pos_registry, ["prog", "x"]) :=
  ⟨by decide, by decide,
    parse_args_missing_positional two_pos_registry "prog" ["x"] [pos_info "x"]
      (by decide) (by decide)⟩

/-! ## Claim C2 -/

/-- C2: for every registry with N declared positionals (distinct names) and
every token list whose classification pass completes with at least N
positional candidates, parse_args succeeds; the definition of the
positional declared at index i receives the i-th positional candidate (in
input order) as its value for every i below N; the remaining candidates are
handed back in their original relative order behind the preserved program
name argv0; and the resulting argument count is 1 plus the number of
leftovers. -/
theorem parse_args_binds_positionals (p : ArgParser) (sn : String)
    (args : List String) (infos : List Arg_Info)
    (hclass : prematch_go p sn args (fun _ => 0) = .ok infos)
    (hnd : p.positional_order.Nodup)
    (hge : p.positional_order.length ≤ positional_count infos) :
    ∃ q : ArgParser,
      parse_args p sn args = .ok
        (q, sn :: (positional_buffer infos).drop p.positional_order.length) ∧
      (sn :: (positional_buffer infos).drop p.positional_order.length).length =
        1 + (positional_count infos - p.positional_order.length) ∧
      ∀ i, i < p.positional_order.length →
        lookupA q.positional_args (p.positional_order.getD i "") =
          (lookupA p.positional_args (p.positional_order.getD i "")).map
            (fun info => { info with value := (positional_buffer infos).getD i "" }) := by
  have hmatch := match_args_ok p sn args infos hclass hge
  have hlenpos : (positional_buffer infos).length = positional_count infos :=
    length_filterMap_pos infos
  have hNle : p.positional_order.length ≤ (positional_buffer infos).length := by
    omega
  refine ⟨_, parse_args_ok p sn args _ _ hmatch, ?_, ?_⟩
  · simp [List.length_drop]
    omega
  · intro i hi
    have hziplen : (p.positional_order.zip (positional_buffer infos)).length =
        p.positional_order.length := by
      rw [List.length_zip]
      omega
    have hmapfst : (p.positional_order.zip (positional_buffer infos)).map Prod.fst =
        p.positional_order := List.map_fst_zip _ _ hNle
    have hbind := assign_positionals_getD
      (p.positional_order.zip (positional_buffer infos)) p.positional_args
      (by rw [hmapfst]; exact hnd) i (by omega)
    have hpair : (p.positional_order.zip (positional_buffer infos)).getD i ("", "") =
        (p.positional_order.getD i "", (positional_buffer infos).getD i "") := by
      have hilt : i < (p.positional_order.zip (positional_buffer infos)).length := by
        omega
      rw [List.getD_eq_getElem _ _ hilt, List.getElem_zip,
        List.getD_eq_getElem _ _ hi, List.getD_eq_getElem _ _ (by omega)]
    rw [hpair] at hbind
    exact hbind

/-- C2 witness: two positionals a, b; four tokens supplied; a binds t1, b
binds t2, and t3, t4 come back behind the program name with argc 3. -/
theorem parse_args_binds_positionals_witness :
    prematch_go two_pos_registry "prog" ["t1", "t2", "t3", "t4"] (fun _ => 0) =
      .ok [pos_info "t1", pos_info "t2", pos_info "t3", pos_info "t4"] ∧
    two_pos_registry.positional_order.Nodup ∧
    two_pos_registry.positional_order.length ≤
      positional_count [pos_info "t1", pos_info "t2", pos_info "t3", pos_info "t4"] ∧
    ∃ q : ArgParser,
      parse_args two_pos_registry "prog" ["t1", "t2", "t3", "t4"] = .ok
        (q, "prog" :: (positional_buffer
          [pos_info "t1", pos_info "t2", pos_info "t3", pos_info "t4"]).drop
            two_pos_registry.positional_order.length) ∧
      ("prog" :: (positional_buffer
          [pos_info "t1", pos_info "t2", pos_info "t3", pos_info "t4"]).drop
            two_pos_registry.positional_order.length).length =
        1 + (positional_count [pos_info "t1", pos_info "t2", pos_info "t3", pos_info "t4"] -
          two_pos_registry.positional_order.length) ∧
      ∀ i, i < two_pos_registry.positional_order.length →
        lookupA q.positional_args (two_pos_registry.positional_order.getD i "") =
          (lookupA two_pos_registry.positional_args
            (two_pos_registry.positional_order.getD i "")).map
            (fun info => { info with value := (positional_buffer
              [pos_info "t1", pos_info "t2", pos_info "t3", pos_info "t4"]).getD i "" }) :=
  ⟨by decide, by decide, by decide,
    parse_args_binds_positionals two_pos_registry "prog" ["t1", "t2", "t3", "t4"]
      [pos_info "t1", pos_info "t2", pos_info "t3", pos_info "t4"]
      (by decide) (by decide) (by decide)⟩

/-! ## Claim C3 -/

/-- C3: whenever parse_args raises a user-input error, the parser state (in
particular every definition value store) and the argument vector are left
exactly as they were before the call: every throw happens inside the const
match_args phase, before either assignment loop runs. -/
theorem parse_args_error_preserves_state (p : ArgParser) (argv0 : String)
    (args : List String) (m : String) (p2 : ArgParser) (argv2 : List String)
    (h : parse_args p argv0 args = .error (.user m, p2, argv2)) :
    p2 = p ∧ argv2 = argv0 :: args := by
  rw [parse_args] at h
  cases hm : match_args p argv0 args with
  | error e =>
    rw [hm] at h
    simp only [Except.error.injEq, Prod.mk.injEq] at h
    exact ⟨h.2.1.symm, h.2.2.symm⟩
  | ok v =>
    rw [hm] at h
    simp at h

/-- C3 witness: a failing parse (missing positional) hands back the original
registry and the original argument vector. -/
theorem parse_args_error_preserves_state_witness :
    parse_args two_pos_registry "prog" ["x"] = .error
      (.user (requires_positional_msg "prog" "b"), two_pos_registry, ["prog", "x"]) ∧
    (two_pos_registry = two_pos_registry ∧ ["prog", "x"] = "prog" :: ["x"]) :=
  ⟨by decide,
    parse_args_error_preserves_state two_pos_registry "prog" ["x"]
      (requires_positional_msg "prog" "b") two_pos_registry ["prog", "x"] (by decide)⟩

/-! ## Claim C4 -/

/-- The occurrence counter after one reference to n. -/
theorem bump_zero_self (n : String) : bump (fun _ => 0) n n = 1 := by
  simp [bump]

/-- Classification of an all-positional token list. -/
theorem prematch_go_all_pos (p : ArgParser) (sn : String) (ps : List String)
    (occ : String → Nat)
    (h : ∀ t ∈ ps, lookup_formatted_option_name p sn t = .ok "") :
    prematch_go p sn ps occ = .ok (ps.map pos_info) := by
  have := prematch_go_append_pos p sn ps [] occ h
  simpa [prematch_go, Except.map] using this

/-- C4: for a declared FLAG-arity optional, (1) two references in the token
list fail with the specified-more-than-once user-input error (the message
text is "should only be specified once"), leaving parser state and argument
vector unchanged; (2) exactly one reference parses successfully and
retrieving the argument as bool yields true; (3) no reference parses
successfully and retrieving as bool yields false even though no default was
supplied. -/
theorem flag_arity_optional (p : ArgParser) (sn n ref : String) (o : Optional_Info)
    (hlook : lookupA p.optional_args n = some o) (hty : o.type = .FLAG)
    (hne : n ≠ "") (hnh : n ≠ "help")
    (href : lookup_formatted_option_name p sn ref = .ok n)
    (hvals : o.values = []) :
    (∀ ps ms rest : List String,
      (∀ t ∈ ps, lookup_formatted_option_name p sn t = .ok "") →
      (∀ t ∈ ms, lookup_formatted_option_name p sn t = .ok "") →
      parse_args p sn (ps ++ ref :: (ms ++ ref :: rest)) =
        .error (.user (once_msg sn n), p, sn :: (ps ++ ref :: (ms ++ ref :: rest)))) ∧
    (∀ ps qs : List String,
      (∀ t ∈ ps, lookup_formatted_option_name p sn t = .ok "") →
      (∀ t ∈ qs, lookup_formatted_option_name p sn t = .ok "") →
      p.positional_order.length ≤ ps.length + qs.length →
      ∃ q res, parse_args p sn (ps ++ ref :: qs) = .ok (q, res) ∧
        q.arg (bool_coercion sn) n = .ok true) ∧
    (∀ ps : List String,
      (∀ t ∈ ps, lookup_formatted_option_name p sn t = .ok "") →
      p.positional_order.length ≤ ps.length →
      ∃ q res, parse_args p sn ps = .ok (q, res) ∧
        q.arg (bool_coercion sn) n = .ok false) := by
  refine ⟨?_, ?_, ?_⟩
  · -- (1) repeated flag reference
    intro ps ms rest hps hms
    apply parse_args_class_error
    apply prematch_go_append_pos_error p sn ps _ _ _ hps
    rw [prematch_go_flag_step p sn ref n o _ _ href hne hnh hlook hty rfl]
    have hinner : prematch_go p sn (ms ++ ref :: rest) (bump (fun _ => 0) n) =
        .error (.user (once_msg sn n)) := by
      apply prematch_go_append_pos_error p sn ms _ _ _ hms
      exact prematch_go_flag_repeat p sn ref n o _ rest href hne hnh hlook hty
        (by rw [bump_zero_self])
    rw [hinner]
    simp [Except.map]
  · -- (2) single flag reference: bool retrieval yields true
    intro ps qs hps hqs hN
    have hgo : prematch_go p sn (ps ++ ref :: qs) (fun _ => 0) =
        .ok (ps.map pos_info ++
          { arg := ref, option_name := n, option_value := "true" } :: qs.map pos_info) := by
      rw [prematch_go_append_pos p sn ps _ _ hps]
      rw [prematch_go_flag_step p sn ref n o _ _ href hne hnh hlook hty rfl]
      rw [prematch_go_all_pos p sn qs _ hqs]
      simp [Except.map]
    have hbuf : positional_buffer (ps.map pos_info ++
        { arg := ref, option_name := n, option_value := "true" } :: qs.map pos_info) =
        ps ++ qs := by
      rw [positional_buffer, filterMap_pos_append]
      have hq : positional_buffer (qs.map pos_info) = qs := by
        have := filterMap_pos_append qs ([] : List Arg_Info)
        simpa [positional_buffer] using this
      simp [List.filterMap_cons, hne]
      simpa [positional_buffer] using hq
    have hpairs : matched_pairs (ps.map pos_info ++
        { arg := ref, option_name := n, option_value := "true" } :: qs.map pos_info) =
        [(n, "true")] := by
      rw [matched_pairs, filterMap_opt_append]
      have hq : matched_pairs (qs.map pos_info) = [] := by
        have := filterMap_opt_append qs ([] : List Arg_Info)
        simpa [matched_pairs] using this
      simp [List.filterMap_cons, hne]
      simpa [matched_pairs] using hq
    have hcount : positional_count (ps.map pos_info ++
        { arg := ref, option_name := n, option_value := "true" } :: qs.map pos_info) =
        ps.length + qs.length := by
      rw [positional_count_append_pos]
      simp [positional_count, List.countP_cons, hne, countP_map_pos]
      intro a ha
      simp [pos_info]
    have hmatch := match_args_ok p sn _ _ hgo (by rw [hcount]; exact hN)
    rw [hbuf, hpairs] at hmatch
    refine ⟨_, _, parse_args_ok p sn _ _ _ hmatch, ?_⟩
    have hassign : assign_optionals p.optional_args [(n, "true")] =
        set_values_in p.optional_args n ["true"] := by
      have h1 := assign_optionals_const p.optional_args n ["true"] (by simp)
      simpa [values_for] using h1
    have hlook2 : lookupA (assign_optionals p.optional_args [(n, "true")]) n =
        some { o with values := ["true"] } := by
      rw [hassign, lookupA_set_values_in_self, hlook]
      rfl
    rw [ArgParser.arg, arg_at_optional_mk _ _ _ _ _ _ _ _ _ _ hlook2]
    rw [as_type_at_present _ _ _ _ (by simp)]
    simp [bool_coercion, parse_bool_arg]
  · -- (3) absent flag: bool retrieval yields false
    intro ps hps hN
    have hgo := prematch_go_all_pos p sn ps (fun _ => 0) hps
    have hbuf : positional_buffer (ps.map pos_info) = ps := by
      have := filterMap_pos_append ps ([] : List Arg_Info)
      simpa [positional_buffer] using this
    have hpairs : matched_pairs (ps.map pos_info) = [] := by
      have := filterMap_opt_append ps ([] : List Arg_Info)
      simpa [matched_pairs] using this
    have hcount : positional_count (ps.map pos_info) = ps.length := by
      have := positional_count_append_pos ps ([] : List Arg_Info)
      simpa [positional_count] using this
    have hmatch := match_args_ok p sn _ _ hgo (by rw [hcount]; exact hN)
    rw [hbuf, hpairs] at hmatch
    refine ⟨_, _, parse_args_ok p sn _ _ _ hmatch, ?_⟩
    have hlook2 : lookupA (assign_optionals p.optional_args []) n = some o := by
      rw [assign_optionals_nil]
      exact hlook
    rw [ArgParser.arg, arg_at_optional_mk _ _ _ _ _ _ _ _ _ _ hlook2]
    rw [as_type_at_absent_flag _ _ _ hvals hty]
    simp [bool_coercion, parse_bool_arg]

/-- C4 witness: the FLAG optional -i, --invert of flag_registry.  Twice
fails; once yields true; absent yields false. -/
theorem flag_arity_optional_witness :
    lookupA flag_registry.optional_args "invert" =
      some { name := "invert", flag := some 'i', type := .FLAG, values := [] } ∧
    parse_args flag_registry "prog" ["-i", "-i"] =
      .error (.user (once_msg "prog" "invert"), flag_registry, ["prog", "-i", "-i"]) ∧
    (∃ q res, parse_args flag_registry "prog" ["-i"] = .ok (q, res) ∧
      q.arg (bool_coercion "prog") "invert" = .ok true) ∧
    (∃ q res, parse_args flag_registry "prog" [] = .ok (q, res) ∧
      q.arg (bool_coercion "prog") "invert" = .ok false) := by
  have h := flag_arity_optional flag_registry "prog" "invert" "-i"
    { name := "invert", flag := some 'i', type := .FLAG, values := [] }
    (by decide) (by decide) (by decide) (by decide) (by decide) (by decide)
  refine ⟨by decide, ?_, ?_, ?_⟩
  · have := h.1 [] [] [] (by intro t ht; simp at ht) (by intro t ht; simp at ht)
    simpa using this
  · have := h.2.1 [] [] (by intro t ht; simp at ht) (by intro t ht; simp at ht)
      (by decide)
    simpa using this
  · have := h.2.2 [] (by intro t ht; simp at ht) (by decide)
    simpa using this

/-! ## Claim C5 -/

/-- C5: for a declared SINGLE-arity optional, (1) a reference that is the
last token fails with the requires-a-value user-input error; (2) a
reference whose following token matches the option-name grammar fails the
same way; (3) two references, each followed by a value token, fail with the
specified-more-than-once user-input error (message text "should only be
specified once").  In each case the registry and the argument vector come
back unchanged. -/
theorem single_arity_optional (p : ArgParser) (sn n ref : String)
    (o : Optional_Info) (hlook : lookupA p.optional_args n = some o)
    (hty : o.type = .SINGLE) (hne : n ≠ "") (hnh : n ≠ "help")
    (href : lookup_formatted_option_name p sn ref = .ok n) :
    (∀ ps : List String,
      (∀ t ∈ ps, lookup_formatted_option_name p sn t = .ok "") →
      parse_args p sn (ps ++ [ref]) =
        .error (.user (requires_value_msg sn n), p, sn :: (ps ++ [ref]))) ∧
    (∀ (ps : List String) (v : String) (rest : List String),
      (∀ t ∈ ps, lookup_formatted_option_name p sn t = .ok "") →
      valid_option_name v = true →
      parse_args p sn (ps ++ ref :: v :: rest) =
        .error (.user (requires_value_msg sn n), p, sn :: (ps ++ ref :: v :: rest))) ∧
    (∀ (ps : List String) (v : String) (ms : List String) (w : String)
        (rest : List String),
      (∀ t ∈ ps, lookup_formatted_option_name p sn t = .ok "") →
      (∀ t ∈ ms, lookup_formatted_option_name p sn t = .ok "") →
      valid_option_name v = false → valid_option_name w = false →
      parse_args p sn (ps ++ ref :: v :: (ms ++ ref :: w :: rest)) =
        .error (.user (once_msg sn n), p,
          sn :: (ps ++ ref :: v :: (ms ++ ref :: w :: rest)))) := by
  have htyf : o.type ≠ .FLAG := by rw [hty]; intro h; cases h
  have htya : o.type ≠ .APPEND := by rw [hty]; intro h; cases h
  refine ⟨?_, ?_, ?_⟩
  · intro ps hps
    apply parse_args_class_error
    apply prematch_go_append_pos_error p sn ps _ _ _ hps
    exact prematch_go_value_missing p sn ref n o _ href hne hnh hlook htyf
  · intro ps v rest hps hv
    apply parse_args_class_error
    apply prematch_go_append_pos_error p sn ps _ _ _ hps
    exact prematch_go_value_optionlike p sn ref n o _ v rest href hne hnh hlook htyf hv
  · intro ps v ms w rest hps hms hv hw
    apply parse_args_class_error
    apply prematch_go_append_pos_error p sn ps _ _ _ hps
    rw [prematch_go_value_step p sn ref n o _ v _ href hne hnh hlook htyf
      (Or.inr rfl) hv]
    have hinner : prematch_go p sn (ms ++ ref :: w :: rest) (bump (fun _ => 0) n) =
        .error (.user (once_msg sn n)) := by
      apply prematch_go_append_pos_error p sn ms _ _ _ hms
      exact prematch_go_value_repeat p sn ref n o _ w rest href hne hnh hlook htyf
        htya (by rw [bump_zero_self]) hw
    rw [hinner]
    simp [Except.map]

/-- C5 witness: the SINGLE optional -r, --repeat-count of single_registry.
Trailing reference, option-looking next token, and a repeat each fail with
the expected message. -/
theorem single_arity_optional_witness :
    lookupA single_registry.optional_args "repeat-count" =
      some { name := "repeat-count", flag := some 'r', type := .SINGLE, values := [] } ∧
    parse_args single_registry "prog" ["-r"] =
      .error (.user (requires_value_msg "prog" "repeat-count"),
        single_registry, ["prog", "-r"]) ∧
    parse_args single_registry "prog" ["-r", "-h"] =
      .error (.user (requires_value_msg "prog" "repeat-count"),
        single_registry, ["prog", "-r", "-h"]) ∧
    parse_args single_registry "prog" ["-r", "3", "-r", "4"] =
      .error (.user (once_msg "prog" "repeat-count"),
        single_registry, ["prog", "-r", "3", "-r", "4"]) := by
  have h := single_arity_optional single_registry "prog" "repeat-count" "-r"
    { name := "repeat-count", flag := some 'r', type := .SINGLE, values := [] }
    (by decide) (by decide) (by decide) (by decide) (by decide)
  refine ⟨by decide, ?_, ?_, ?_⟩
  · have := h.1 [] (by intro t ht; simp at ht)
    simpa using this
  · have := h.2.1 [] "-h" [] (by intro t ht; simp at ht) (by decide)
    simpa using this
  · have := h.2.2 [] "3" [] "4" [] (by intro t ht; simp at ht)
      (by intro t ht; simp at ht) (by decide) (by decide)
    simpa using this

/-! ## Claim C6 -/

/-- The token block of k occurrences of an option reference, each followed
by its value token. -/
def ref_value_tokens (ref : String) : List String → List String
  | [] => []
  | v :: vs => ref :: v :: ref_value_tokens ref vs

/-- Classification of a block of APPEND reference/value pairs: every pair
becomes one matched occurrence, regardless of the occurrence counter. -/
theorem prematch_go_ref_values (p : ArgParser) (sn n ref : String)
    (o : Optional_Info) (hlook : lookupA p.optional_args n = some o)
    (hty : o.type = .APPEND) (hne : n ≠ "") (hnh : n ≠ "help")
    (href : lookup_formatted_option_name p sn ref = .ok n) :
    ∀ (vs : List String) (occ : String → Nat),
      (∀ v ∈ vs, valid_option_name v = false) →
      prematch_go p sn (ref_value_tokens ref vs) occ =
        .ok (vs.map (fun v => { arg := ref, option_name := n, option_value := v })) := by
  intro vs
  induction vs with
  | nil => intro occ hvs; simp [ref_value_tokens, prematch_go]
  | cons v vs ih =>
    intro occ hvs
    rw [ref_value_tokens]
    rw [prematch_go_value_step p sn ref n o occ v _ href hne hnh hlook
      (by rw [hty]; intro h; cases h) (Or.inl hty) (hvs v (by simp))]
    rw [ih (bump occ n) (fun u hu => hvs u (by simp [hu]))]
    simp [Except.map]

/-- The matched pairs of an APPEND block all name that option. -/
theorem matched_pairs_ref_values (n ref : String) (vs : List String) (hne : n ≠ "") :
    matched_pairs (vs.map (fun v => { arg := ref, option_name := n, option_value := v })) =
      vs.map (fun v => (n, v)) := by
  induction vs with
  | nil => simp [matched_pairs]
  | cons v vs ih => simpa [matched_pairs, hne] using ih

/-- An APPEND block contributes no positional candidates. -/
theorem positional_buffer_ref_values (n ref : String) (vs : List String)
    (hne : n ≠ "") :
    positional_buffer
      (vs.map (fun v => { arg := ref, option_name := n, option_value := v })) = [] := by
  induction vs with
  | nil => simp [positional_buffer]
  | cons v vs ih => simpa [positional_buffer, hne] using ih

/-- positional_count of an APPEND block is zero. -/
theorem positional_count_ref_values (n ref : String) (vs : List String)
    (hne : n ≠ "") :
    positional_count
      (vs.map (fun v => { arg := ref, option_name := n, option_value := v })) = 0 := by
  induction vs with
  | nil => simp [positional_count]
  | cons v vs ih => simpa [positional_count, List.countP_cons, hne] using ih

/-- C6 counterexample: the claim demands an out-of-range error naming the
index for every retrieval index at or beyond the number of occurrences,
including k = 0; but after a successful parse with zero occurrences of the
APPEND optional --filter, retrieval at index 0 raises the no-value-given
logic error, whose message does not name the index and is not an
out-of-range error at all. -/
theorem append_zero_occurrence_counterexample :
    parse_args append_registry "prog" [] = .ok (append_registry, ["prog"]) ∧
    ArgParser.arg_at append_registry string_coercion "filter" 0 none =
      .error (lerrstr ("no value given for \x27filter\x27 and no default specified")) ∧
    str_occurs "out of range"
      (lerrstr ("no value given for \x27filter\x27 and no default specified")) = false ∧
    lerrstr ("no value given for \x27filter\x27 and no default specified") ≠
      lerrstr ("index 0 is out of range for \x27filter\x27") := by
  refine ⟨by decide, by decide, by decide, by decide⟩

/-- C6 (amended): for a declared APPEND-arity optional whose reference
occurs k >= 0 times, each followed by a value token, parse_args succeeds,
stores the k values in input order, and retrieval at index i < k returns
the value of the (i+1)-th occurrence; retrieval at any index >= k fails:
for k >= 1 with the out-of-range error naming that index and the argument
name, and for k = 0 with the no-value-given error instead. -/
theorem append_arity_optional (p : ArgParser) (sn n ref : String)
    (o : Optional_Info) (hlook : lookupA p.optional_args n = some o)
    (hty : o.type = .APPEND) (hne : n ≠ "") (hnh : n ≠ "help")
    (href : lookup_formatted_option_name p sn ref = .ok n)
    (hvals : o.values = []) (ps vs : List String)
    (hps : ∀ t ∈ ps, lookup_formatted_option_name p sn t = .ok "")
    (hvs : ∀ v ∈ vs, valid_option_name v = false)
    (hN : p.positional_order.length ≤ ps.length) :
    ∃ q res, parse_args p sn (ps ++ ref_value_tokens ref vs) = .ok (q, res) ∧
      lookupA q.optional_args n = some { o with values := vs } ∧
      (∀ i, i < vs.length →
        q.arg_at string_coercion n i none = .ok (vs.getD i "")) ∧
      (∀ idx, vs.length ≤ idx →
        q.arg_at string_coercion n idx none = .error
          (if vs.length = 0 then
            lerrstr ("no value given for \x27" ++ o.name ++ "\x27 and no default specified")
          else
            lerrstr ("index " ++ toString idx ++ " is out of range for \x27" ++
              o.name ++ "\x27"))) := by
  have hgo : prematch_go p sn (ps ++ ref_value_tokens ref vs) (fun _ => 0) =
      .ok (ps.map pos_info ++
        vs.map (fun v => { arg := ref, option_name := n, option_value := v })) := by
    rw [prematch_go_append_pos p sn ps _ _ hps]
    rw [prematch_go_ref_values p sn n ref o hlook hty hne hnh href vs _ hvs]
    simp [Except.map]
  have hbuf : positional_buffer (ps.map pos_info ++
      vs.map (fun v => { arg := ref, option_name := n, option_value := v })) = ps := by
    rw [positional_buffer, filterMap_pos_append]
    have := positional_buffer_ref_values n ref vs hne
    rw [positional_buffer] at this
    simp [this]
  have hpairs : matched_pairs (ps.map pos_info ++
      vs.map (fun v => { arg := ref, option_name := n, option_value := v })) =
      vs.map (fun v => (n, v)) := by
    rw [matched_pairs, filterMap_opt_append]
    exact matched_pairs_ref_values n ref vs hne
  have hcount : positional_count (ps.map pos_info ++
      vs.map (fun v => { arg := ref, option_name := n, option_value := v })) =
      ps.length := by
    rw [positional_count_append_pos, positional_count_ref_values n ref vs hne]
    omega
  have hmatch := match_args_ok p sn _ _ hgo (by rw [hcount]; exact hN)
  rw [hbuf, hpairs] at hmatch
  have hlookq : lookupA (assign_optionals p.optional_args (vs.map (fun v => (n, v)))) n =
      some { o with values := vs } := by
    cases hvcase : vs with
    | nil =>
      simp only [List.map_nil]
      rw [assign_optionals_nil]
      rw [hlook]
      have heq : ({ o with values := ([] : List String) } : Optional_Info) = o := by
        cases o
        simp at hvals
        simp [hvals]
      rw [heq]
    | cons v vs2 =>
      rw [assign_optionals_const p.optional_args n (v :: vs2) (by simp)]
      rw [values_for_const]
      rw [lookupA_set_values_in_self, hlook]
      rfl
  refine ⟨_, _, parse_args_ok p sn _ _ _ hmatch, hlookq, ?_, ?_⟩
  · intro i hi
    rw [arg_at_optional_mk _ _ _ _ _ _ _ _ _ _ hlookq]
    rw [as_type_at_present _ _ _ _ (by simpa using hi)]
    simp [string_coercion, parse_string_arg_id]
  · intro idx hidx
    rw [arg_at_optional_mk _ _ _ _ _ _ _ _ _ _ hlookq]
    cases hvcase : vs with
    | nil =>
      subst hvcase
      rw [as_type_at_absent_no_flag _ _ _ (by simp) (by rw [hty]; intro h; cases h)]
      simp
    | cons v vs2 =>
      rw [as_type_at_out_of_range _ _ _ _ (by simp [hvcase]) (by simpa [hvcase] using hidx)]
      have : vs.length ≠ 0 := by simp [hvcase]
      simp [hvcase]

/-- C6 witness: --filter as APPEND with two occurrences x, y: both
retrievable in order, index 2 out of range naming index and argument. -/
theorem append_arity_optional_witness :
    ∃ q res, parse_args append_registry "prog"
        (ref_value_tokens "-f" ["x", "y"]) = .ok (q, res) ∧
      lookupA q.optional_args "filter" =
        some { name := "filter", flag := some 'f', type := .APPEND,
               values := ["x", "y"] } ∧
      q.arg_at string_coercion "filter" 0 none = .ok "x" ∧
      q.arg_at string_coercion "filter" 1 none = .ok "y" ∧
      q.arg_at string_coercion "filter" 2 none = .error
        (lerrstr ("index 2 is out of range for \x27filter\x27")) := by
  have h := append_arity_optional append_registry "prog" "filter" "-f"
    { name := "filter", flag := some 'f', type := .APPEND, values := [] }
    (by decide) (by decide) (by decide) (by decide) (by decide) (by decide)
    [] ["x", "y"] (by intro t ht; simp at ht)
    (by intro v hv; fin_cases hv <;> decide) (by decide)
  obtain ⟨q, res, hp, hl, hin, hout⟩ := h
  refine ⟨q, res, hp, hl, ?_, ?_, ?_⟩
  · simpa using hin 0 (by decide)
  · simpa using hin 1 (by decide)
  · simpa using hout 2 (by decide)

/-! ## Claim C7 -/

/-- C7: unsigned-integer coercion is wraparound-safe.  (1) Any stored value
containing a minus sign fails with the must-be-in-range error and never
returns a (wrapped) value; (2) a conversion that itself overflows unsigned
long long fails with the same range error; (3) a converted magnitude above
the target width maximum fails with the same range error; (4) text with no
digits to convert fails with the must-be-of-integral-type error. -/
theorem unsigned_coercion_wraparound_safe (sn name : String) (bits : Nat) :
    (∀ value : String, value.data.contains '-' = true →
      parse_unsigned_arg bits sn name value = .error (range_msg sn name bits) ∧
      ∀ m : Nat, parse_unsigned_arg bits sn name value ≠ .ok m) ∧
    (∀ value : String, cpp_stoull value = .out_of_range →
      parse_unsigned_arg bits sn name value = .error (range_msg sn name bits)) ∧
    (∀ (value : String) (m : Nat), cpp_stoull value = .ok m →
      unsigned_max bits < m →
      parse_unsigned_arg bits sn name value = .error (range_msg sn name bits)) ∧
    (∀ value : String, cpp_stoull value = .invalid_arg →
      parse_unsigned_arg bits sn name value = .error (must_be_integral_msg sn name)) := by
  refine ⟨?_, ?_, ?_, ?_⟩
  · intro value hminus
    have hoor : cpp_stoull value = .out_of_range := by
      rw [cpp_stoull, hminus]
      simp
    constructor
    · rw [parse_unsigned_arg, hoor]
    · intro m
      rw [parse_unsigned_arg, hoor]
      intro h
      cases h
  · intro value hoor
    rw [parse_unsigned_arg, hoor]
  · intro value m hok hgt
    rw [parse_unsigned_arg, hok]
    simp [hgt]
  · intro value hinv
    rw [parse_unsigned_arg, hinv]

/-- C7 witness: the literal "-5" coerced to an 8-bit unsigned target fails
with the range error [0,255] and is never a wrapped value; "300" overflows
8 bits; "abc" is not integral. -/
theorem unsigned_coercion_wraparound_safe_witness :
    ("-5".data.contains '-' = true ∧
      parse_unsigned_arg 8 "prog" "n" "-5" = .error (range_msg "prog" "n" 8) ∧
      ∀ m : Nat, parse_unsigned_arg 8 "prog" "n" "-5" ≠ .ok m) ∧
    (cpp_stoull "300" = .ok 300 ∧
      parse_unsigned_arg 8 "prog" "n" "300" = .error (range_msg "prog" "n" 8)) ∧
    (cpp_stoull "abc" = .invalid_arg ∧
      parse_unsigned_arg 8 "prog" "n" "abc" = .error (must_be_integral_msg "prog" "n")) := by
  have h := unsigned_coercion_wraparound_safe "prog" "n" 8
  refine ⟨⟨by decide, ?_, ?_⟩, ⟨by decide, ?_⟩, ⟨by decide, ?_⟩⟩
  · exact (h.1 "-5" (by decide)).1
  · exact (h.1 "-5" (by decide)).2
  · exact h.2.2.1 "300" 300 (by decide) (by decide)
  · exact h.2.2.2 "abc" (by decide)

/-! ## Claim C8 -/

/-- C8 counterexample: the claim says an unresolvable option-grammar token
fails with an "invalid option" error naming the offending token.  For the
unregistered long token "--foo" the actual message names the dash-stripped
reference "foo" and does not contain the token "--foo"; for the
unregistered short flag "-x" the actual message says "invalid flag", not
"invalid option". -/
theorem invalid_option_message_counterexample :
    parse_args init_registry "prog" ["--foo"] = .error
      (.user (invalid_option_msg "prog" "foo"), init_registry, ["prog", "--foo"]) ∧
    str_occurs "--foo" (invalid_option_msg "prog" "foo") = false ∧
    str_occurs "--help" (invalid_option_msg "prog" "foo") = true ∧
    parse_args init_registry "prog" ["-x"] = .error
      (.user (invalid_flag_msg "prog" "-x"), init_registry, ["prog", "-x"]) ∧
    str_occurs "invalid option" (invalid_flag_msg "prog" "-x") = false ∧
    str_occurs "-x" (invalid_flag_msg "prog" "-x") = true ∧
    str_occurs "--help" (invalid_flag_msg "prog" "-x") = true := by
  refine ⟨by decide, by decide, by decide, by decide, by decide, by decide, by decide⟩

/-- C8 (amended): a token matching the option grammar that does not resolve
fails immediately with a user-input error mentioning --help: for a
short-flag token whose character is not in the flag table the message is
"invalid flag" naming the raw token; for a long token whose stripped
reference name is unregistered (and not the built-in help) the message is
"invalid option" naming the stripped reference name.  State and argument
vector come back unchanged. -/
theorem invalid_option_error_forms (p : ArgParser) (sn : String) :
    (∀ (ps : List String) (tok : String) (rest : List String) (c : Char),
      (∀ t ∈ ps, lookup_formatted_option_name p sn t = .ok "") →
      format_flag_name tok = some c → lookupF p.flags c = none →
      parse_args p sn (ps ++ tok :: rest) = .error
        (.user (invalid_flag_msg sn tok), p, sn :: (ps ++ tok :: rest))) ∧
    (∀ (ps : List String) (tok : String) (rest : List String),
      (∀ t ∈ ps, lookup_formatted_option_name p sn t = .ok "") →
      format_flag_name tok = none → format_option_name tok ≠ "" →
      format_option_name tok ≠ "help" →
      lookupA p.optional_args (format_option_name tok) = none →
      parse_args p sn (ps ++ tok :: rest) = .error
        (.user (invalid_option_msg sn (format_option_name tok)), p,
          sn :: (ps ++ tok :: rest))) := by
  constructor
  · intro ps tok rest c hps hfc hfl
    apply parse_args_class_error
    apply prematch_go_append_pos_error p sn ps _ _ _ hps
    exact prematch_go_invalid_flag p sn tok c _ rest hfc hfl
  · intro ps tok rest hps hfc hne hnh hlook
    apply parse_args_class_error
    apply prematch_go_append_pos_error p sn ps _ _ _ hps
    have hres : lookup_formatted_option_name p sn tok = .ok (format_option_name tok) := by
      rw [lookup_formatted_option_name, hfc]
    exact prematch_go_unregistered p sn tok _ _ rest hres hne hnh hlook

/-- C8 witness: both unresolved forms on the default registry. -/
theorem invalid_option_error_forms_witness :
    parse_args init_registry "prog" ["-z"] = .error
      (.user (invalid_flag_msg "prog" "-z"), init_registry, ["prog", "-z"]) ∧
    parse_args init_registry "prog" ["--bar"] = .error
      (.user (invalid_option_msg "prog" "bar"), init_registry, ["prog", "--bar"]) := by
  have h := invalid_option_error_forms init_registry "prog"
  constructor
  · have := h.1 [] "-z" [] 'z' (by intro t ht; simp at ht) (by decide) (by decide)
    simpa using this
  · have := h.2 [] "--bar" [] (by intro t ht; simp at ht) (by decide) (by decide)
      (by decide) (by decide)
    simpa [format_option_name, format_option_name_chars, name_plus_match] using this

/-! ## Claim C9 -/

/-- The registry with positional points after parsing the token "77". -/
def points_parsed : ArgParser :=
  ⟨["points"], [("points", { name := "points", value := "77" })], ["help"],
   [("help", { name := "help", flag := some 'h', type := .FLAG, values := [] })],
   [('h', "help")]⟩

/-- C9: round-trip through the typed accessors.  Declaring positional
points, parsing the single token "77": retrieval as a 32-bit unsigned
integer yields 77; retrieval as bool fails with the boolean-literal error;
retrieval as string yields exactly "77"; and in general string coercion is
the identity on the stored value and always succeeds. -/
theorem typed_accessor_roundtrip :
    (add_positional init_registry "points" = .ok points_registry ∧
     parse_args points_registry "prog" ["77"] = .ok (points_parsed, ["prog"]) ∧
     points_parsed.arg (unsigned_coercion "prog" 32) "points" = .ok 77 ∧
     points_parsed.arg (bool_coercion "prog") "points" = .error
       (errstr "prog" "\x27points\x27 must be either \x27true\x27 or \x27false\x27") ∧
     points_parsed.arg string_coercion "points" = .ok "77") ∧
    (∀ name v : String, string_coercion name v = .ok v) := by
  refine ⟨⟨by decide, by decide, by decide, by decide, by decide⟩, fun name v => rfl⟩

/-! ## Claim C10 -/

/-- C10: arg_at on a name registered as a positional (and not as an
optional) ignores the retrieval index entirely: for every index and every
default it returns the coercion of the single stored value and can never
raise an out-of-range error.  The index bounds check applies only to
optional arguments, where a supplied optional with an index at or beyond
its value count fails with the out-of-range error. -/
theorem arg_at_positional_ignores_index {α : Type}
    (coe : String → String → Except String α) :
    (∀ (p : ArgParser) (name : String) (pin : Positional_Info),
      lookupA p.optional_args name = none →
      lookupA p.positional_args name = some pin →
      ∀ (idx : Nat) (dflt : Option α),
        p.arg_at coe name idx dflt = coe pin.name pin.value) ∧
    (∀ (p : ArgParser) (name : String) (o : Optional_Info) (idx : Nat)
        (dflt : Option α),
      lookupA p.optional_args name = some o → o.values ≠ [] →
      o.values.length ≤ idx →
      p.arg_at coe name idx dflt = .error
        (lerrstr ("index " ++ toString idx ++ " is out of range for \x27" ++
          o.name ++ "\x27"))) := by
  constructor
  · intro p name pin hopt hpos idx dflt
    simp [ArgParser.arg_at, hopt, hpos, Positional_Info.as_type]
  · intro p name o idx dflt hopt hne hlen
    rw [arg_at_optional p coe name idx dflt o hopt]
    exact as_type_at_out_of_range o coe idx dflt hne hlen

/-- A registry holding only an APPEND optional filter with one recorded
value. -/
def one_filter_registry : ArgParser :=
  ⟨[], [], ["filter"],
   [("filter", { name := "filter", flag := none, type := .APPEND, values := ["x"] })],
   []⟩

/-- C10 witness: the bound positional points ("77") retrieved at index 5
still coerces the stored value; an APPEND optional with one value fails at
index 7 with the out-of-range error. -/
theorem arg_at_positional_ignores_index_witness :
    points_parsed.arg_at string_coercion "points" 5 none = .ok "77" ∧
    one_filter_registry.arg_at string_coercion "filter" 7 none =
      .error (lerrstr ("index 7 is out of range for \x27filter\x27")) := by
  have h := arg_at_positional_ignores_index string_coercion
  constructor
  · have := h.1 points_parsed "points"
      { name := "points", value := "77" } (by decide) (by decide) 5 none
    simpa [string_coercion, parse_string_arg_id] using this
  · have := h.2 one_filter_registry "filter"
      { name := "filter", flag := none, type := .APPEND, values := ["x"] }
      7 none (by decide) (by decide) (by decide)
    simpa using this

end Cparse
